import Mathlib

/-!
Verification of the configuration-snapshot / rule-evaluation engine of the
`appconfiguration-rust-sdk` repository, as a shallow embedding in Lean.

Conventions of the embedding:
* Rust `u32` arithmetic is modelled on `Nat` with explicit `% 2^32`
  (`wrapping_mul`, `rotate_left`, `^`, `>>` of the `murmur3` crate).
* `std::collections::HashMap` is modelled as an association list
  (`List (String × _)`) with `mapLookup` returning the value of the first
  matching key; a `HashMap` never holds two entries with the same key, which
  appears below as a `Nodup` hypothesis on the key list where it matters.
* `f64` attribute values are modelled as `Rat`: every numeric literal used in
  a configuration or by a theorem below is exactly representable in `f64`,
  and comparisons of exactly-representable values agree with the rational
  ones.  `str::parse::<f64>` / `str::parse::<bool>` are modelled by
  `parseNumber` / `parseBool` (decimal numerals with optional sign and
  fraction; exactly `"true"`/`"false"`), which agree with the Rust parsers on
  every string these theorems touch.
* `serde_json::Value` configuration payloads are modelled by `ConfigValue`
  with integer numerics: every numeric configuration value exercised by the
  claims is integral.
* Rust `panic!` / `.expect` in evaluation code is modelled as the
  distinguished error `EvalError.panicked msg`, so that reaching a panic is
  observable in the result type.
* The `f64` expression `(f64::from(h) / f64::from(u32::MAX) * 100.0) as u32`
  of `random_value` is modelled as the exact natural division
  `h * 100 / 4294967295`.  The two agree for every `h < 2^32`: the quotient
  and product each round with relative error ≤ 2⁻⁵², so the computed double
  differs from the exact rational `h·100/(2³²−1)` by less than 3·10⁻¹⁴, while
  that rational is never within 10⁻⁴ of an integer it does not equal; the
  finitely many `h` whose quotient is an exact integer round exactly.  (The
  agreement of the two expressions was additionally checked exhaustively for
  all 2³² values of `h`.)
-/

instance {ε α : Type} [DecidableEq ε] [DecidableEq α] : DecidableEq (Except ε α) :=
  fun x y =>
    match x, y with
    | .error e, .error f =>
      if h : e = f then isTrue (congrArg _ h)
      else isFalse fun hh => h (Except.error.inj hh)
    | .error _, .ok _ => isFalse Except.noConfusion
    | .ok _, .error _ => isFalse Except.noConfusion
    | .ok a, .ok b =>
      if h : a = b then isTrue (congrArg _ h)
      else isFalse fun hh => h (Except.ok.inj hh)

/-- One byte as a natural number `< 256`. -/
abbrev Byte := Nat

/-- Truncation to 32 bits: models Rust `u32` wrap-around. -/
def toU32 (n : Nat) : Nat := n % 4294967296

/-- `u32::rotate_left` for `x < 2^32` and a rotation amount `0 < r < 32`. -/
def rotl32 (x r : Nat) : Nat := (x * 2 ^ r) % 4294967296 ||| x / 2 ^ (32 - r)

/-- The per-block mixing of MurmurHash3 x86/32 as implemented by the
`murmur3` crate: `k.wrapping_mul(C1).rotate_left(15).wrapping_mul(C2)`
with `C1 = 0xcc9e2d51`, `C2 = 0x1b873593`. -/
def calcK (k : Nat) : Nat := toU32 (rotl32 (toU32 (k * 3432918353)) 15 * 461845907)

/-- The finalization of MurmurHash3 x86/32 (`h ^= len; fmix32(h)`). -/
def murmurFinish (state processed : Nat) : Nat :=
  let h0 := state ^^^ toU32 processed
  let h1 := h0 ^^^ h0 / 2 ^ 16
  let h2 := toU32 (h1 * 2246822507)
  let h3 := h2 ^^^ h2 / 2 ^ 13
  let h4 := toU32 (h3 * 3266489909)
  h4 ^^^ h4 / 2 ^ 16

/-- The state update for one full 4-byte block
(`h ^= calcK k; h = h.rotate_left(13); h = h.wrapping_mul(5).wrapping_add(0xe6546b64)`). -/
def mixState (state k : Nat) : Nat :=
  toU32 (rotl32 (state ^^^ calcK k) 13 * 5 + 3864292196)

/-- Little-endian value of a 1/2/3/4-byte group. -/
def leWord2 (b0 b1 : Nat) : Nat := b0 + b1 * 256

def leWord3 (b0 b1 b2 : Nat) : Nat := b0 + b1 * 256 + b2 * 65536

def leWord4 (b0 b1 b2 b3 : Nat) : Nat := b0 + b1 * 256 + b2 * 65536 + b3 * 16777216

/-- The chunking performed by the read loop of `murmur3::murmur3_32`: the
little-endian values of the full 4-byte blocks (in stream order), the
little-endian value of the 0–3 byte tail, and the tail's length. -/
def toWords : List Byte → List Nat × Nat × Nat
  | [] => ([], 0, 0)
  | [b0] => ([], b0, 1)
  | [b0, b1] => ([], leWord2 b0 b1, 2)
  | [b0, b1, b2] => ([], leWord3 b0 b1 b2, 3)
  | b0 :: b1 :: b2 :: b3 :: rest =>
    let w := toWords rest
    (leWord4 b0 b1 b2 b3 :: w.1, w.2.1, w.2.2)

/-- 32-bit MurmurHash3, x86 variant, of a byte string, exactly as the
`murmur3` crate used by `feature_proxy.rs` computes it: each full 4-byte
block is mixed into the state in stream order, a non-empty tail contributes
`h ^= calcK k`, and the processed byte count feeds finalization. -/
def murmur3_32 (bytes : List Byte) (seed : Nat) : Nat :=
  let w := toWords bytes
  let state := w.1.foldl mixState seed
  let state2 := if w.2.2 == 0 then state else state ^^^ calcK w.2.1
  murmurFinish state2 (4 * w.1.length + w.2.2)

/-- UTF-8 encoding of one Unicode scalar value. -/
def utf8EncodeChar (c : Char) : List Byte :=
  let n := c.toNat
  if n < 128 then [n]
  else if n < 2048 then [192 + n / 64, 128 + n % 64]
  else if n < 65536 then [224 + n / 4096, 128 + n / 64 % 64, 128 + n % 64]
  else [240 + n / 262144, 128 + n / 4096 % 64, 128 + n / 64 % 64, 128 + n % 64]

/-- UTF-8 bytes of a string. -/
def utf8Bytes (s : String) : List Byte := (s.data.map utf8EncodeChar).flatten

/-- `feature_proxy.rs::hash`: murmur3 (x86, 32-bit) with seed 0 of the UTF-8
bytes of `v`. -/
def hashStr (v : String) : Nat := murmur3_32 (utf8Bytes v) 0

/-- `feature_proxy.rs::random_value`: the rollout bucket of a tag,
`(f64::from(hash(v)) / f64::from(u32::MAX) * 100.0) as u32`, which computes
exactly `hash v * 100 / (2^32 - 1)` (see the header comment). -/
def random_value (v : String) : Nat := hashStr v * 100 / 4294967295

/-- The bucket formula as worded by the spec (§4.4): `floor(hash / 2^32 * 100)`.
Kept separate from `random_value`, which embeds the source. -/
def bucketSpec (v : String) : Nat := hashStr v * 100 / 4294967296

/-- The bucketing test vectors asserted by the repository's own tests
(`feature_snapshot.rs::test_get_value_no_match_50_50_rollout`): tag
`"a1:f1"` buckets to 68 and `"a2:f1"` to 29. -/
theorem random_value_test_vectors :
    random_value "a1:f1" = 68 ∧ random_value "a2:f1" = 29 :=
  ⟨by decide, by decide⟩

/-! ## Data model (`models.rs`, `entity.rs`) -/

/-- `entity.rs::AttrValue`: an entity attribute is a number (`f64`, modelled
as `Rat`), a string, or a boolean. -/
inductive AttrValue where
  | numeric (q : Rat)
  | string (s : String)
  | boolean (b : Bool)
deriving DecidableEq, Repr

/-- `models.rs::ConfigValue`: a raw configuration value wraps a
`serde_json::Value`; the numeric payloads exercised here are integral. -/
inductive ConfigValue where
  | num (n : Int)
  | str (s : String)
  | boolean (b : Bool)
  | null
deriving DecidableEq, Repr

/-- `ConfigValue::is_default`: true iff the value is the string sentinel
`"$default"`. -/
def ConfigValue.is_default : ConfigValue → Bool
  | .str s => s = "$default"
  | _ => false

/-- `ConfigValue::as_u64`: the value as a `u64` if it is a non-negative
integer number. -/
def ConfigValue.as_u64 : ConfigValue → Option Nat
  | .num n => if 0 ≤ n then some n.toNat else none
  | _ => none

/-- `models.rs::SegmentRule`: one attribute predicate of a segment. -/
structure SegmentRule where
  attribute_name : String
  operator : String
  values : List String
deriving DecidableEq, Repr

/-- `models.rs::Segment`. -/
structure Segment where
  name : String
  segment_id : String
  description : String
  tags : Option String
  rules : List SegmentRule
deriving DecidableEq, Repr

/-- `models.rs::Segments`: one group of segment ids of a targeting rule. -/
structure Segments where
  segments : List String
deriving DecidableEq, Repr

/-- `models.rs::TargetingRule`. -/
structure TargetingRule where
  rules : List Segments
  value : ConfigValue
  order : Nat
  rollout_percentage : Option ConfigValue
deriving DecidableEq, Repr

/-- `models.rs::ValueKind`. -/
inductive ValueKind where
  | numeric
  | boolean
  | string
deriving DecidableEq, Repr

/-- `models.rs::Feature`. -/
structure Feature where
  name : String
  feature_id : String
  kind : ValueKind
  format : Option String
  enabled_value : ConfigValue
  disabled_value : ConfigValue
  segment_rules : List TargetingRule
  enabled : Bool
  rollout_percentage : Nat
deriving DecidableEq, Repr

/-- `models.rs::Property`. -/
structure Property where
  name : String
  property_id : String
  kind : ValueKind
  tags : Option String
  format : Option String
  value : ConfigValue
  segment_rules : List TargetingRule
deriving DecidableEq, Repr

/-- An `entity.rs::Entity`: an id and an attribute map. -/
structure Entity where
  id : String
  attributes : List (String × AttrValue)
deriving DecidableEq, Repr

/-- `HashMap::get` on the association-list model: value of the first entry
with the given key. -/
def mapLookup {α : Type} (l : List (String × α)) (k : String) : Option α :=
  match l with
  | [] => none
  | (k', v) :: rest => if k' = k then some v else mapLookup rest k

/-! ## Reference-value parsing

Models of `str::parse::<bool>` and `str::parse::<f64>` for the reference
values of segment rules.  `parseBool` is exact.  `parseNumber` accepts
decimal numerals with optional sign and optional fractional part, a strict
subset of the Rust `f64` grammar that covers every reference value appearing
in the theorems below, and is exact on it. -/

/-- `str::parse::<bool>`: exactly `"true"` or `"false"`. -/
def parseBool (s : String) : Option Bool :=
  if s = "true" then some true else if s = "false" then some false else none

/-- Accumulating value of a nonempty all-digit character list. -/
def digitsAux : List Char → Nat → Option Nat
  | [], acc => some acc
  | c :: rest, acc =>
    if c.isDigit then digitsAux rest (acc * 10 + (c.toNat - 48)) else none

/-- Digits as a natural number, most significant first; `none` on the empty
list or any non-digit. -/
def digitsToNat : List Char → Option Nat
  | [] => none
  | l => digitsAux l 0

/-- Split a character list at the first `'.'`, if any. -/
def splitAtDot : List Char → List Char × Option (List Char)
  | [] => ([], none)
  | c :: rest =>
    if c = '.' then ([], some rest)
    else
      let (pre, post) := splitAtDot rest
      (c :: pre, post)

/-- Model of `str::parse::<f64>` (restricted decimal grammar, exact). -/
def parseNumber (s : String) : Option Rat :=
  let cs := s.data
  let (neg, body) : Bool × List Char :=
    match cs with
    | '-' :: rest => (true, rest)
    | '+' :: rest => (false, rest)
    | _ => (false, cs)
  match splitAtDot body with
  | (intPart, none) =>
    match digitsToNat intPart with
    | some n => some (if neg then -(n : Rat) else (n : Rat))
    | none => none
  | (intPart, some fracPart) =>
    match digitsToNat intPart, digitsToNat fracPart with
    | some n, some f =>
      let q : Rat := (n : Rat) + (f : Rat) / ((10 : Rat) ^ fracPart.length)
      some (if neg then -q else q)
    | _, _ => none

/-! ## Segment evaluation (`segment_evaluation/mod.rs`, `segment_evaluation/errors.rs`) -/

/-- `segment_evaluation/errors.rs::CheckOperatorErrorDetail`. -/
inductive CheckOperatorErrorDetail where
  | stringExpected
  | booleanExpected
  | numberExpected
  | entityAttrNotANumber
  | operatorNotImplemented
deriving DecidableEq, Repr

/-- `segment_evaluation/errors.rs::SegmentEvaluationError`; the
`SegmentEvaluationErrorKind` payload (segment id, the segment rule, the
offending reference value, the operator failure) is inlined. -/
inductive SegmentEvaluationError where
  | segmentEvaluationFailed (segment_id : String) (segment_rule : SegmentRule)
      (value : String) (source : CheckOperatorErrorDetail)
  | segmentIdNotFound (segment_id : String)
deriving DecidableEq, Repr

/-- `segment_evaluation/mod.rs::check_operator`. -/
def check_operator (attribute_value : AttrValue) (operator reference_value : String) :
    Except CheckOperatorErrorDetail Bool :=
  match operator with
  | "is" =>
    match attribute_value with
    | .string data => .ok (data = reference_value)
    | .boolean data =>
      match parseBool reference_value with
      | some b => .ok (data = b)
      | none => .error .booleanExpected
    | .numeric data =>
      match parseNumber reference_value with
      | some q => .ok (data = q)
      | none => .error .numberExpected
  | "contains" =>
    match attribute_value with
    | .string data => .ok (data.containsSubstr reference_value)
    | _ => .error .stringExpected
  | "startsWith" =>
    match attribute_value with
    | .string data => .ok (reference_value.isPrefixOf data)
    | _ => .error .stringExpected
  | "endsWith" =>
    match attribute_value with
    | .string data => .ok (data.endsWith reference_value)
    | _ => .error .stringExpected
  | "greaterThan" =>
    match attribute_value with
    | .numeric data =>
      match parseNumber reference_value with
      | some q => .ok (q < data)
      | none => .error .numberExpected
    | _ => .error .entityAttrNotANumber
  | "lesserThan" =>
    match attribute_value with
    | .numeric data =>
      match parseNumber reference_value with
      | some q => .ok (data < q)
      | none => .error .numberExpected
    | _ => .error .entityAttrNotANumber
  | "greaterThanEquals" =>
    match attribute_value with
    | .numeric data =>
      match parseNumber reference_value with
      | some q => .ok (q ≤ data)
      | none => .error .numberExpected
    | _ => .error .entityAttrNotANumber
  | "lesserThanEquals" =>
    match attribute_value with
    | .numeric data =>
      match parseNumber reference_value with
      | some q => .ok (data ≤ q)
      | none => .error .numberExpected
    | _ => .error .entityAttrNotANumber
  | _ => .error .operatorNotImplemented

/-- The `find_map` scan inside `belong_to_segment`: candidate values are
examined in list order; the scan stops at the first value on which
`check_operator` returns true (the candidate) or fails (the error, paired
with the offending value). -/
def findCandidate (a : AttrValue) (op : String) :
    List String → Except (CheckOperatorErrorDetail × String) (Option String)
  | [] => .ok none
  | v :: rest =>
    match check_operator a op v with
    | .ok true => .ok (some v)
    | .ok false => findCandidate a op rest
    | .error e => .error (e, v)

/-- The rule loop of `belong_to_segment`: every rule of the segment must
match; a rule whose attribute is absent from the entity's attributes makes
the whole call return `false` (not an error). -/
def belongToSegmentRules (segment : Segment) (attrs : List (String × AttrValue)) :
    List SegmentRule → Except SegmentEvaluationError Bool
  | [] => .ok true
  | rule :: rest =>
    match mapLookup attrs rule.attribute_name with
    | none => .ok false
    | some attr_value =>
      match findCandidate attr_value rule.operator rule.values with
      | .error (e, v) =>
        .error (.segmentEvaluationFailed segment.segment_id rule v e)
      | .ok candidate =>
        if candidate.isSome then belongToSegmentRules segment attrs rest
        else .ok false

/-- `segment_evaluation/mod.rs::belong_to_segment`. -/
def belong_to_segment (segment : Segment) (attrs : List (String × AttrValue)) :
    Except SegmentEvaluationError Bool :=
  belongToSegmentRules segment attrs segment.rules

/-- `segment_evaluation/mod.rs::segment_applies_to_entity`: ids of one group
are resolved and tested in order; an id absent from the segment map is the
`SegmentIdNotFound` error. -/
def segment_applies_to_entity (segments : List (String × Segment))
    (attrs : List (String × AttrValue)) :
    List String → Except SegmentEvaluationError Bool
  | [] => .ok false
  | segment_id :: rest =>
    match mapLookup segments segment_id with
    | none => .error (.segmentIdNotFound segment_id)
    | some segment =>
      match belong_to_segment segment attrs with
      | .error e => .error e
      | .ok true => .ok true
      | .ok false => segment_applies_to_entity segments attrs rest

/-- The group loop of `targeting_rule_applies_to_entity`. -/
def anyGroupApplies (segments : List (String × Segment))
    (attrs : List (String × AttrValue)) :
    List Segments → Except SegmentEvaluationError Bool
  | [] => .ok false
  | group :: rest =>
    match segment_applies_to_entity segments attrs group.segments with
    | .error e => .error e
    | .ok true => .ok true
    | .ok false => anyGroupApplies segments attrs rest

/-- `segment_evaluation/mod.rs::targeting_rule_applies_to_entity`. -/
def targeting_rule_applies_to_entity (segments : List (String × Segment))
    (targeting_rule : TargetingRule) (entity : Entity) :
    Except SegmentEvaluationError Bool :=
  anyGroupApplies segments entity.attributes targeting_rule.rules

/-- The ascending-`order` comparison used by
`targeting_rules.sort_by(|a, b| a.order.cmp(&b.order))`. -/
def ruleLE (a b : TargetingRule) : Prop := a.order ≤ b.order

instance : DecidableRel ruleLE := fun a b => Nat.decLe a.order b.order

instance : IsTotal TargetingRule ruleLE := ⟨fun a b => Nat.le_total a.order b.order⟩

instance : IsTrans TargetingRule ruleLE := ⟨fun _ _ _ => Nat.le_trans⟩

/-- The rule loop of `find_applicable_segment_rule_for_entity` over the
already sorted list: first targeting rule that applies wins. -/
def firstMatchingRule (segments : List (String × Segment)) (entity : Entity) :
    List TargetingRule → Except SegmentEvaluationError (Option TargetingRule)
  | [] => .ok none
  | tr :: rest =>
    match targeting_rule_applies_to_entity segments tr entity with
    | .error e => .error e
    | .ok true => .ok (some tr)
    | .ok false => firstMatchingRule segments entity rest

/-- `segment_evaluation/mod.rs::find_applicable_segment_rule_for_entity`:
sorts the targeting rules ascending by `order` (Rust `sort_by` is stable, as
is `List.insertionSort`) and returns the first rule that applies. -/
def find_applicable_segment_rule_for_entity (segments : List (String × Segment))
    (segment_rules : List TargetingRule) (entity : Entity) :
    Except SegmentEvaluationError (Option TargetingRule) :=
  firstMatchingRule segments entity (segment_rules.insertionSort ruleLE)

/-! ## Feature and property evaluation (`client/feature_snapshot.rs`,
`client/property_snapshot.rs`) -/

/-- Errors of feature/property evaluation: a propagated segment-evaluation
error (wrapped as `errors.rs::Error::EntityEvaluationError`), or a Rust
`panic!`/`.expect` (modelled as a value, see the header comment). -/
inductive EvalError where
  | entityEvaluationError (e : SegmentEvaluationError)
  | panicked (msg : String)
deriving DecidableEq, Repr

/-- `FeatureSnapshot::should_rollout`: the percentage gate over the tag
`"{entity_id}:{feature_id}"`. -/
def should_rollout (rollout_percentage : Nat) (entity : Entity) (feature_id : String) :
    Bool :=
  let tag := entity.id ++ ":" ++ feature_id
  rollout_percentage == 100 || random_value tag < rollout_percentage

/-- `FeatureSnapshot::use_rollout_percentage_to_get_value_from_feature_directly`. -/
def useRolloutPercentageDirectly (feature : Feature) (entity : Entity) : ConfigValue :=
  if should_rollout feature.rollout_percentage entity feature.feature_id then
    feature.enabled_value
  else
    feature.disabled_value

/-- Resolution of a matched rule's rollout percentage inside
`FeatureSnapshot::evaluate_feature_for_entity`: an absent value panics
(`"Rollout value is missing."`), the `"$default"` sentinel resolves to the
feature's own percentage, any other value must convert `u64 → u32`. -/
def resolveRolloutPercentage (feature : Feature) (segment_rule : TargetingRule) :
    Except EvalError Nat :=
  match segment_rule.rollout_percentage with
  | none => .error (.panicked "Rollout value is missing.")
  | some value =>
    if value.is_default then .ok feature.rollout_percentage
    else
      match value.as_u64 with
      | none => .error (.panicked "Rollout value is not u64.")
      | some n =>
        if n < 4294967296 then .ok n
        else .error (.panicked "Invalid rollout value. Could not convert to u32.")

/-- `client/feature_snapshot.rs::FeatureSnapshot::evaluate_feature_for_entity`. -/
def evaluate_feature_for_entity (feature : Feature)
    (segments : List (String × Segment)) (entity : Entity) :
    Except EvalError ConfigValue :=
  if feature.enabled = false then .ok feature.disabled_value
  else if feature.segment_rules.isEmpty || entity.attributes.isEmpty then
    .ok (useRolloutPercentageDirectly feature entity)
  else
    match find_applicable_segment_rule_for_entity segments feature.segment_rules entity with
    | .error e => .error (.entityEvaluationError e)
    | .ok none => .ok (useRolloutPercentageDirectly feature entity)
    | .ok (some segment_rule) =>
      match resolveRolloutPercentage feature segment_rule with
      | .error e => .error e
      | .ok rollout_percentage =>
        if should_rollout rollout_percentage entity feature.feature_id then
          if segment_rule.value.is_default then .ok feature.enabled_value
          else .ok segment_rule.value
        else .ok feature.disabled_value

/-- `client/property_snapshot.rs::PropertySnapshot::evaluate_feature_for_entity`
(the property evaluator; the source method shares the feature evaluator's
name). -/
def evaluate_property_for_entity (property : Property)
    (segments : List (String × Segment)) (entity : Entity) :
    Except EvalError ConfigValue :=
  if property.segment_rules.isEmpty || entity.attributes.isEmpty then
    .ok property.value
  else
    match find_applicable_segment_rule_for_entity segments property.segment_rules entity with
    | .error e => .error (.entityEvaluationError e)
    | .ok (some segment_rule) =>
      if segment_rule.value.is_default then .ok property.value
      else .ok segment_rule.value
    | .ok none => .ok property.value

/-! ## Client snapshot access (`client/cache.rs`,
`client/app_configuration_client.rs`) -/

/-- `client/cache.rs::ConfigurationSnapshot`: id-indexed features, properties
and segments of one environment. -/
structure ConfigurationSnapshot where
  features : List (String × Feature)
  properties : List (String × Property)
  segments : List (String × Segment)
deriving DecidableEq, Repr

/-- `client/cache.rs::ConfigurationAccessError`. -/
inductive ConfigurationAccessError where
  | lockAcquisitionError
  | environmentNotFound (environment_id : String)
  | featureNotFound (feature_id : String)
  | propertyNotFound (property_id : String)
  | missingSegments (resource_id : String)
deriving DecidableEq, Repr

/-- The snapshot handle built by `AppConfigurationClient::get_feature`
(`client/feature.rs::Feature::new`): the feature plus the captured segment
map. -/
structure FeatureHandle where
  feature : Feature
  segments : List (String × Segment)
deriving DecidableEq, Repr

/-- The snapshot handle built by `AppConfigurationClient::get_property`. -/
structure PropertyHandle where
  property : Property
  segments : List (String × Segment)
deriving DecidableEq, Repr

/-- All segment ids referenced by a list of targeting rules, deduplicated
(the `HashSet` of `get_feature`/`get_property`). -/
def referencedSegmentIds (segment_rules : List TargetingRule) : List String :=
  ((segment_rules.map fun tr => (tr.rules.map Segments.segments).flatten).flatten).dedup

/-- `AppConfigurationClient::get_feature`: looks the feature up, captures the
referenced segments, and fails with `MissingSegments` when the number of
captured segments differs from the number of referenced ids. -/
def get_feature (snapshot : ConfigurationSnapshot) (feature_id : String) :
    Except ConfigurationAccessError FeatureHandle :=
  match mapLookup snapshot.features feature_id with
  | none => .error (.featureNotFound feature_id)
  | some feature =>
    let all_segment_ids := referencedSegmentIds feature.segment_rules
    let segments := snapshot.segments.filter fun kv => all_segment_ids.contains kv.1
    if all_segment_ids.length ≠ segments.length then
      .error (.missingSegments feature_id)
    else
      .ok ⟨feature, segments⟩

/-- `AppConfigurationClient::get_property` (same shape as `get_feature`). -/
def get_property (snapshot : ConfigurationSnapshot) (property_id : String) :
    Except ConfigurationAccessError PropertyHandle :=
  match mapLookup snapshot.properties property_id with
  | none => .error (.propertyNotFound property_id)
  | some property =>
    let all_segment_ids := referencedSegmentIds property.segment_rules
    let segments := snapshot.segments.filter fun kv => all_segment_ids.contains kv.1
    if all_segment_ids.length ≠ segments.length then
      .error (.missingSegments property_id)
    else
      .ok ⟨property, segments⟩

/-! ## Bounds on the hash -/

theorem toU32_lt (n : Nat) : toU32 n < 4294967296 :=
  Nat.mod_lt _ (by norm_num)

theorem xor32_lt {x y : Nat} (hx : x < 4294967296) (hy : y < 4294967296) :
    x ^^^ y < 4294967296 := by
  have h : (4294967296 : Nat) = 2 ^ 32 := by norm_num
  rw [h] at hx hy ⊢
  exact Nat.bitwise_lt hx hy

theorem lor32_lt {x y : Nat} (hx : x < 4294967296) (hy : y < 4294967296) :
    x ||| y < 4294967296 := by
  have h : (4294967296 : Nat) = 2 ^ 32 := by norm_num
  rw [h] at hx hy ⊢
  exact Nat.bitwise_lt hx hy

theorem rotl32_lt (x r : Nat) (hx : x < 4294967296) : rotl32 x r < 4294967296 :=
  lor32_lt (toU32_lt _) (Nat.lt_of_le_of_lt (Nat.div_le_self _ _) hx)

theorem murmurFinish_lt (state processed : Nat) :
    murmurFinish state processed < 4294967296 := by
  unfold murmurFinish
  refine xor32_lt (toU32_lt _) ?_
  exact Nat.lt_of_le_of_lt (Nat.div_le_self _ _) (toU32_lt _)

theorem murmur3_32_lt (bytes : List Byte) (seed : Nat) :
    murmur3_32 bytes seed < 4294967296 :=
  murmurFinish_lt _ _

theorem hashStr_lt (v : String) : hashStr v < 4294967296 :=
  murmur3_32_lt _ _

/-! ## Claim C1 -/

/-- C1, counterexample.  The claim states that the bucketing function always
returns an integer in `[0,100)`, computed as `floor(hash / 2^32 * 100)`.
The tag `"zr0zyzba"` hashes (murmur3 x86, seed 0) to `4294967295 = 2^32 - 1`,
on which the code (which divides by `2^32 - 1 = u32::MAX`, not `2^32`)
returns bucket `100`, while the claimed formula yields `99`. -/
theorem C1_counterexample :
    random_value "zr0zyzba" = 100 ∧ bucketSpec "zr0zyzba" = 99 ∧
      hashStr "zr0zyzba" = 4294967295 :=
  ⟨by decide, by decide, by decide⟩

/-- C1, amended.  For every string tag, `random_value` returns
`floor(hash * 100 / (2^32 - 1))`, an integer in `[0,100]`; it equals `100`
exactly when the 32-bit MurmurHash3 (x86 variant, seed 0) of the UTF-8 bytes
of the tag is `2^32 - 1`. -/
theorem C1_bucket_range_amended (v : String) :
    random_value v ≤ 100 ∧ (random_value v = 100 ↔ hashStr v = 4294967295) := by
  have hlt : hashStr v < 4294967296 := hashStr_lt v
  constructor
  · calc hashStr v * 100 / 4294967295
        ≤ 4294967295 * 100 / 4294967295 :=
          Nat.div_le_div_right (Nat.mul_le_mul_right _ (by omega))
      _ = 100 := by norm_num
  · constructor
    · intro h100
      unfold random_value at h100
      have h := (Nat.le_div_iff_mul_le (by norm_num : 0 < 4294967295)).1 h100.symm.le
      omega
    · intro hmax
      unfold random_value
      rw [hmax]

/-! ## Claim C8 -/

/-- C8.  The rollout gate `should_rollout` includes every entity at
percentage 100, excludes every entity at percentage 0, and in general is
`percentage == 100 || random_value(entity_id + ":" + feature_id) < percentage`. -/
theorem C8_should_rollout (percentage : Nat) (entity : Entity) (feature_id : String) :
    (percentage = 100 → should_rollout percentage entity feature_id = true) ∧
    (percentage = 0 → should_rollout percentage entity feature_id = false) ∧
    (should_rollout percentage entity feature_id = true ↔
      percentage = 100 ∨ random_value (entity.id ++ ":" ++ feature_id) < percentage) := by
  unfold should_rollout
  refine ⟨fun h => ?_, fun h => ?_, ?_⟩
  · subst h; simp
  · subst h; simp
  · simp

/-- C8, witness: percentage 100 includes entity `a1` for feature `f1`,
percentage 0 excludes it, and at percentage 50 entity `a2` (bucket 29) is
included. -/
theorem C8_should_rollout_witness :
    should_rollout 100 ⟨"a1", []⟩ "f1" = true ∧
    should_rollout 0 ⟨"a1", []⟩ "f1" = false ∧
    should_rollout 50 ⟨"a2", []⟩ "f1" = true :=
  ⟨(C8_should_rollout 100 ⟨"a1", []⟩ "f1").1 rfl,
   (C8_should_rollout 0 ⟨"a1", []⟩ "f1").2.1 rfl,
   (C8_should_rollout 50 ⟨"a2", []⟩ "f1").2.2.mpr (Or.inr (by decide))⟩

/-! ## Claim C5 -/

/-- C5.  For every entity and every feature with `enabled = false`, feature
evaluation returns the feature's `disabled_value`, regardless of rollout
percentage and segment rules. -/
theorem C5_disabled_feature (feature : Feature) (segments : List (String × Segment))
    (entity : Entity) (h : feature.enabled = false) :
    evaluate_feature_for_entity feature segments entity = .ok feature.disabled_value := by
  unfold evaluate_feature_for_entity
  rw [h]
  simp

/-- C5, witness: a disabled numeric feature with rollout 100 and a segment
rule evaluates to its disabled value `2` for an entity that would match. -/
theorem C5_disabled_feature_witness :
    evaluate_feature_for_entity
      ⟨"F1", "f1", .numeric, none, .num (-42), .num 2,
        [⟨[⟨["s1"]⟩], .num 7, 0, some (.num 100)⟩], false, 100⟩
      [("s1", ⟨"", "s1", "", none, []⟩)] ⟨"a2", [("name", .string "heinz")]⟩
      = .ok (.num 2) :=
  C5_disabled_feature _ _ _ rfl

/-! ## Claim C3 -/

/-- C3, counterexample.  The claim states that a matched targeting rule with
`rollout_percentage` absent entirely (`None`) resolves to the feature's own
rollout percentage and returns a value.  In the code the `None` arm of the
rollout match panics (`"Rollout value is missing."`, modelled as an error):
here the single targeting rule matches (its segment `"s1"` has no rules, so
every entity with attributes belongs to it) and evaluation reaches the
panic instead of returning a value. -/
theorem C3_counterexample :
    evaluate_feature_for_entity
      ⟨"F1", "f1", .numeric, none, .num (-42), .num 2,
        [⟨[⟨["s1"]⟩], .num 1, 0, none⟩], true, 100⟩
      [("s1", ⟨"", "s1", "", none, []⟩)] ⟨"e1", [("x", .string "y")]⟩
      = .error (.panicked "Rollout value is missing.") := by decide

/-- C3, amended.  For every matched targeting rule whose
`rollout_percentage` field is absent entirely (`None`), feature evaluation
panics with `"Rollout value is missing."`; only the `"$default"` sentinel
(not absence) resolves to the feature's own rollout percentage. -/
theorem C3_missing_rollout_panics (feature : Feature)
    (segments : List (String × Segment)) (entity : Entity) (r : TargetingRule)
    (hen : feature.enabled = true)
    (hsr : feature.segment_rules.isEmpty = false)
    (hattrs : entity.attributes.isEmpty = false)
    (hfind : find_applicable_segment_rule_for_entity segments
      feature.segment_rules entity = .ok (some r))
    (hro : r.rollout_percentage = none) :
    evaluate_feature_for_entity feature segments entity
      = .error (.panicked "Rollout value is missing.") := by
  unfold evaluate_feature_for_entity
  rw [hen, hsr, hattrs, hfind]
  simp [resolveRolloutPercentage, hro]

/-- C3, witness for the amended theorem: the counterexample configuration
satisfies its hypotheses. -/
theorem C3_missing_rollout_panics_witness :
    evaluate_feature_for_entity
      ⟨"F1", "f1", .numeric, none, .num (-42), .num 2,
        [⟨[⟨["s2"]⟩], .num 1, 0, none⟩], true, 100⟩
      [("s2", ⟨"", "s2", "", none, []⟩)] ⟨"e1", [("x", .string "y")]⟩
      = .error (.panicked "Rollout value is missing.") :=
  C3_missing_rollout_panics _ _ _ ⟨[⟨["s2"]⟩], .num 1, 0, none⟩
    rfl rfl rfl (by decide) rfl

/-! ## Claim C7 -/

/-- C7.  The `"$default"` sentinel: (1) a matched targeting rule whose
`value` is the sentinel resolves, when the rollout gate passes, to the
owning feature's `enabled_value`; (2) a matched rule's rollout percentage
equal to the sentinel resolves to the owning feature's own
`rollout_percentage`; (3) a matched rule of a property whose `value` is the
sentinel resolves to the property's base `value`. -/
theorem C7_default_sentinel :
    (∀ (feature : Feature) (segments : List (String × Segment)) (entity : Entity)
        (r : TargetingRule) (p : Nat),
      feature.enabled = true →
      feature.segment_rules.isEmpty = false →
      entity.attributes.isEmpty = false →
      find_applicable_segment_rule_for_entity segments feature.segment_rules entity
        = .ok (some r) →
      resolveRolloutPercentage feature r = .ok p →
      should_rollout p entity feature.feature_id = true →
      r.value.is_default = true →
      evaluate_feature_for_entity feature segments entity = .ok feature.enabled_value) ∧
    (∀ (feature : Feature) (r : TargetingRule) (v : ConfigValue),
      r.rollout_percentage = some v →
      v.is_default = true →
      resolveRolloutPercentage feature r = .ok feature.rollout_percentage) ∧
    (∀ (property : Property) (segments : List (String × Segment)) (entity : Entity)
        (r : TargetingRule),
      property.segment_rules.isEmpty = false →
      entity.attributes.isEmpty = false →
      find_applicable_segment_rule_for_entity segments property.segment_rules entity
        = .ok (some r) →
      r.value.is_default = true →
      evaluate_property_for_entity property segments entity = .ok property.value) := by
  refine ⟨?_, ?_, ?_⟩
  · intro feature segments entity r p hen hsr hattrs hfind hres hroll hdef
    unfold evaluate_feature_for_entity
    rw [hen, hsr, hattrs, hfind]
    simp [hres, hroll, hdef]
  · intro feature r v hro hdef
    unfold resolveRolloutPercentage
    rw [hro]
    simp [hdef]
  · intro property segments entity r hsr hattrs hfind hdef
    unfold evaluate_property_for_entity
    rw [hsr, hattrs, hfind]
    simp [hdef]

/-- C7, witness: (1) a matched rule with value `"$default"` and rollout 50
yields the feature's `enabled_value` `-42` for entity `a2` (bucket 29);
(2) a rule whose rollout percentage is `"$default"` resolves to the owning
feature's rollout percentage `0`; (3) a matched property rule with value
`"$default"` yields the property's base value `-42`. -/
theorem C7_default_sentinel_witness :
    evaluate_feature_for_entity
      ⟨"F1", "f1", .numeric, none, .num (-42), .num 2,
        [⟨[⟨["sd"]⟩], .str "$default", 0, some (.num 50)⟩], true, 50⟩
      [("sd", ⟨"", "sd", "", none, [⟨"name", "is", ["heinz"]⟩]⟩)]
      ⟨"a2", [("name", .string "heinz")]⟩
      = .ok (.num (-42)) ∧
    resolveRolloutPercentage
      ⟨"F1", "f1", .numeric, none, .num (-42), .num 2, [], true, 0⟩
      ⟨[⟨["sd"]⟩], .num 48, 0, some (.str "$default")⟩ = .ok 0 ∧
    evaluate_property_for_entity
      ⟨"P1", "p1", .numeric, none, none, .num (-42),
        [⟨[⟨["sd"]⟩], .str "$default", 1, some (.num 100)⟩]⟩
      [("sd", ⟨"", "sd", "", none, [⟨"name", "is", ["heinz"]⟩]⟩)]
      ⟨"a2", [("name", .string "heinz")]⟩
      = .ok (.num (-42)) :=
  ⟨C7_default_sentinel.1 _ _ _ ⟨[⟨["sd"]⟩], .str "$default", 0, some (.num 50)⟩ 50
      rfl rfl rfl (by decide) (by decide) (by decide) rfl,
   C7_default_sentinel.2.1 _ ⟨[⟨["sd"]⟩], .num 48, 0, some (.str "$default")⟩
      (.str "$default") rfl rfl,
   C7_default_sentinel.2.2 _ _ _ ⟨[⟨["sd"]⟩], .str "$default", 1, some (.num 100)⟩
      rfl rfl (by decide) rfl⟩

/-! ## Claim C4 -/

/-- Candidates already rejected (`Ok(false)`) are skipped by the scan. -/
theorem findCandidate_append_of_false (a : AttrValue) (op : String)
    (vs1 vs2 : List String)
    (hpre : ∀ v' ∈ vs1, check_operator a op v' = .ok false) :
    findCandidate a op (vs1 ++ vs2) = findCandidate a op vs2 := by
  induction vs1 with
  | nil => rfl
  | cons v' rest ih =>
    have hv' : check_operator a op v' = .ok false := hpre v' (by simp)
    simp only [List.cons_append, findCandidate, hv']
    exact ih fun x hx => hpre x (by simp [hx])

/-- C4, counterexample.  The claim states that a parse failure on one
candidate value is not fatal as long as some other candidate in the list
matches.  Here the segment rule is `"n" greaterThan ["abc", "42"]` and the
entity has `n = 50`: the candidate `"42"` matches (`50 > 42`), yet
`belong_to_segment` fails, because the scan aborts on the earlier
unparsable `"abc"`. -/
theorem C4_counterexample :
    belong_to_segment
      ⟨"seg", "seg1", "", none, [⟨"n", "greaterThan", ["abc", "42"]⟩]⟩
      [("n", .numeric 50)]
      = .error (.segmentEvaluationFailed "seg1" ⟨"n", "greaterThan", ["abc", "42"]⟩
          "abc" .numberExpected) ∧
    check_operator (.numeric 50) "greaterThan" "42" = .ok true := by
  exact ⟨by decide, by decide⟩

/-- C4, amended.  Candidate values are examined in list order and the scan
stops at the first value that matches or the first whose comparison is
structurally invalid.  A parse/type failure is therefore tolerated only when
an *earlier* candidate matches; if every candidate before the failing value
was a clean non-match, the call fails, with an error carrying the segment
id, the segment rule (attribute name and operator), and the offending
value. -/
theorem C4_scan_order_amended (sname sid sdesc : String) (stags : Option String)
    (name op : String) (vs1 : List String) (v : String) (vs2 : List String)
    (attrs : List (String × AttrValue)) (a : AttrValue)
    (hlook : mapLookup attrs name = some a)
    (hpre : ∀ v' ∈ vs1, check_operator a op v' = .ok false) :
    (check_operator a op v = .ok true →
      belong_to_segment ⟨sname, sid, sdesc, stags, [⟨name, op, vs1 ++ v :: vs2⟩]⟩ attrs
        = .ok true) ∧
    (∀ e, check_operator a op v = .error e →
      belong_to_segment ⟨sname, sid, sdesc, stags, [⟨name, op, vs1 ++ v :: vs2⟩]⟩ attrs
        = .error (.segmentEvaluationFailed sid ⟨name, op, vs1 ++ v :: vs2⟩ v e)) := by
  have hscan := findCandidate_append_of_false a op vs1 (v :: vs2) hpre
  constructor
  · intro hv
    have hfc : findCandidate a op (vs1 ++ v :: vs2) = .ok (some v) := by
      rw [hscan]
      unfold findCandidate
      rw [hv]
    simp [belong_to_segment, belongToSegmentRules, hlook, hfc]
  · intro e hv
    have hfc : findCandidate a op (vs1 ++ v :: vs2) = .error (e, v) := by
      rw [hscan]
      unfold findCandidate
      rw [hv]
    simp [belong_to_segment, belongToSegmentRules, hlook, hfc]

/-- C4, witness for the amended theorem: with operator `greaterThan`,
values `["77", "42"]` and attribute `n = 50`, the leading candidate `"77"`
is a clean non-match, `"42"` matches, and the segment matches; replacing
`"42"` by the unparsable `"abc"` makes the call fail with the descriptive
error. -/
theorem C4_scan_order_amended_witness :
    belong_to_segment
      ⟨"seg", "seg1", "", none, [⟨"n", "greaterThan", ["77", "42"]⟩]⟩
      [("n", .numeric 50)] = .ok true ∧
    belong_to_segment
      ⟨"seg", "seg1", "", none, [⟨"n", "greaterThan", ["77", "abc"]⟩]⟩
      [("n", .numeric 50)]
      = .error (.segmentEvaluationFailed "seg1" ⟨"n", "greaterThan", ["77", "abc"]⟩
          "abc" .numberExpected) :=
  ⟨(C4_scan_order_amended "seg" "seg1" "" none "n" "greaterThan" ["77"] "42" []
      [("n", .numeric 50)] (.numeric 50) rfl (by decide)).1 (by decide),
   (C4_scan_order_amended "seg" "seg1" "" none "n" "greaterThan" ["77"] "abc" []
      [("n", .numeric 50)] (.numeric 50) rfl (by decide)).2 .numberExpected (by decide)⟩

/-! ## Claim C6 -/

/-- C6, counterexample.  The claim states that *every* segment containing a
rule whose attribute is absent from the entity's attributes is treated as
non-matching without error.  Here the segment's first rule
(`"n" contains "x"`, with `n` numeric) fails with a type error before the
loop ever reaches the second rule, whose attribute `"missing_attr"` is
absent — so the call errors instead of returning false. -/
theorem C6_counterexample :
    mapLookup [("n", AttrValue.numeric 50)] "missing_attr" = none ∧
    belong_to_segment
      ⟨"", "s", "", none, [⟨"n", "contains", ["x"]⟩, ⟨"missing_attr", "is", ["x"]⟩]⟩
      [("n", .numeric 50)]
      = .error (.segmentEvaluationFailed "s" ⟨"n", "contains", ["x"]⟩ "x"
          .stringExpected) :=
  ⟨by decide, by decide⟩

/-- C6, amended.  A segment containing a rule whose attribute is absent from
the entity's attribute map evaluates to `Ok(false)` — the absence itself is
never an error — provided no rule listed *before* it fails with an
evaluation error (each earlier rule either has an absent attribute itself or
scans its candidates without a structural failure). -/
theorem C6_absent_attribute_amended (segment : Segment)
    (attrs : List (String × AttrValue)) (pre post : List SegmentRule)
    (ruleAbs : SegmentRule)
    (hsplit : segment.rules = pre ++ ruleAbs :: post)
    (habs : mapLookup attrs ruleAbs.attribute_name = none)
    (hpre : ∀ t ∈ pre, ∀ a, mapLookup attrs t.attribute_name = some a →
      ∃ c, findCandidate a t.operator t.values = .ok c) :
    belong_to_segment segment attrs = .ok false := by
  unfold belong_to_segment
  rw [hsplit]
  clear hsplit
  induction pre with
  | nil => simp [belongToSegmentRules, habs]
  | cons t rest ih =>
    simp only [List.cons_append]
    cases hl : mapLookup attrs t.attribute_name with
    | none => simp [belongToSegmentRules, hl]
    | some a =>
      obtain ⟨c, hc⟩ := hpre t (by simp) a hl
      cases c with
      | none => simp [belongToSegmentRules, hl, hc]
      | some cv =>
        simp only [belongToSegmentRules, hl, hc, Option.isSome_some, if_true]
        exact ih fun x hx => hpre x (by simp [hx])

/-- C6, witness for the amended theorem: a segment whose only rule
references the absent attribute `"missing_attr"` evaluates to `Ok(false)`
for an entity having only `n = 50`. -/
theorem C6_absent_attribute_amended_witness :
    belong_to_segment ⟨"", "s", "", none, [⟨"missing_attr", "is", ["x"]⟩]⟩
      [("n", .numeric 50)] = .ok false :=
  C6_absent_attribute_amended _ _ [] [] ⟨"missing_attr", "is", ["x"]⟩ rfl rfl
    (fun t ht => absurd ht (List.not_mem_nil t))

/-! ## Claim C2 -/

/-- Specification of the first-match loop over a sorted rule list: a
returned rule applies, and no rule in the list with a smaller `order`
applies. -/
theorem firstMatchingRule_spec (segments : List (String × Segment)) (entity : Entity) :
    ∀ l : List TargetingRule, l.Sorted ruleLE →
      ∀ r, firstMatchingRule segments entity l = .ok (some r) →
        targeting_rule_applies_to_entity segments r entity = .ok true ∧
        ∀ t ∈ l, targeting_rule_applies_to_entity segments t entity = .ok true →
          r.order ≤ t.order := by
  intro l
  induction l with
  | nil => intro _ r h; exact absurd (Except.ok.inj h) (by simp)
  | cons tr rest ih =>
    intro hsorted r h
    unfold firstMatchingRule at h
    cases happ : targeting_rule_applies_to_entity segments tr entity with
    | error e => rw [happ] at h; exact absurd h (by simp)
    | ok b =>
      rw [happ] at h
      cases b with
      | true =>
        have hr : r = tr := by
          have := Except.ok.inj h
          exact (Option.some.inj this).symm
        subst hr
        refine ⟨happ, ?_⟩
        intro t ht _
        rcases List.mem_cons.1 ht with rfl | htr
        · exact Nat.le_refl _
        · exact List.rel_of_sorted_cons hsorted t htr
      | false =>
        obtain ⟨h1, h2⟩ := ih hsorted.of_cons r h
        refine ⟨h1, ?_⟩
        intro t ht htrue
        rcases List.mem_cons.1 ht with rfl | htr
        · rw [happ] at htrue
          exact absurd (Except.ok.inj htrue) (by simp)
        · exact h2 t htr htrue

/-- Two sorted lists of targeting rules that are permutations of each other
and have pairwise-distinct `order` values are equal. -/
theorem sorted_perm_nodup_order_eq :
    ∀ l₁ l₂ : List TargetingRule, l₁.Perm l₂ → l₁.Sorted ruleLE →
      l₂.Sorted ruleLE → ((l₁.map TargetingRule.order).Nodup) → l₁ = l₂ := by
  intro l₁
  induction l₁ with
  | nil => intro l₂ hperm _ _ _; exact (hperm.nil_eq).symm ▸ rfl
  | cons a t₁ ih =>
    intro l₂ hperm hs₁ hs₂ hnd
    cases l₂ with
    | nil => exact absurd hperm.symm.nil_eq (by simp)
    | cons b t₂ =>
      have hab : a = b := by
        have hbin : b ∈ a :: t₁ := hperm.mem_iff.2 (List.mem_cons_self b t₂)
        have hain : a ∈ b :: t₂ := hperm.mem_iff.1 (List.mem_cons_self a t₁)
        have h1 : a.order ≤ b.order := by
          rcases List.mem_cons.1 hbin with rfl | hb
          · exact Nat.le_refl _
          · exact List.rel_of_sorted_cons hs₁ b hb
        have h2 : b.order ≤ a.order := by
          rcases List.mem_cons.1 hain with rfl | ha
          · exact Nat.le_refl _
          · exact List.rel_of_sorted_cons hs₂ a ha
        exact List.inj_on_of_nodup_map hnd (List.mem_cons_self a t₁) hbin
          (Nat.le_antisymm h1 h2)
      subst hab
      have htails : t₁.Perm t₂ := hperm.cons_inv
      have := ih t₂ htails hs₁.of_cons hs₂.of_cons (by
        have : (List.map TargetingRule.order (a :: t₁)).Nodup := hnd
        simpa using this.of_cons)
      rw [this]

/-- C2.  When a targeting rule is returned by
`find_applicable_segment_rule_for_entity`, it applies to the entity and has
the numerically smallest `order` among all applying rules of the input
list; moreover (with pairwise-distinct `order` values) the result does not
depend on the order in which the rules appear in the source document. -/
theorem C2_smallest_order (segments : List (String × Segment))
    (rules : List TargetingRule) (entity : Entity) (r : TargetingRule)
    (h : find_applicable_segment_rule_for_entity segments rules entity = .ok (some r)) :
    (targeting_rule_applies_to_entity segments r entity = .ok true ∧
      ∀ t ∈ rules, targeting_rule_applies_to_entity segments t entity = .ok true →
        r.order ≤ t.order) ∧
    ∀ rules', rules.Perm rules' → (rules.map TargetingRule.order).Nodup →
      find_applicable_segment_rule_for_entity segments rules' entity = .ok (some r) := by
  constructor
  · have hsorted := List.sorted_insertionSort ruleLE rules
    obtain ⟨h1, h2⟩ := firstMatchingRule_spec segments entity _ hsorted r h
    refine ⟨h1, ?_⟩
    intro t ht
    exact h2 t ((List.perm_insertionSort ruleLE rules).symm.mem_iff.1 ht)
  · intro rules' hperm hnd
    have hkey : (rules'.insertionSort ruleLE) = rules.insertionSort ruleLE := by
      apply sorted_perm_nodup_order_eq
      · exact (List.perm_insertionSort ruleLE rules').trans
          (hperm.symm.trans (List.perm_insertionSort ruleLE rules).symm)
      · exact List.sorted_insertionSort ruleLE rules'
      · exact List.sorted_insertionSort ruleLE rules
      · exact ((List.perm_insertionSort ruleLE rules').map TargetingRule.order).nodup_iff.2
          ((hperm.symm.map TargetingRule.order).nodup_iff.2 hnd)
    unfold find_applicable_segment_rule_for_entity
    rw [hkey]
    exact h

/-- C2, witness (the spec's scenario D): two matching rules with orders 1
(value −48) and 0 (value −49); the returned rule is the order-0 one, which
applies, has smaller order than the other, and is found likewise from the
reversed document order. -/
theorem C2_smallest_order_witness :
    targeting_rule_applies_to_entity
      [("sd", ⟨"", "sd", "", none, [⟨"name", "is", ["heinz"]⟩]⟩)]
      ⟨[⟨["sd"]⟩], .num (-49), 0, some (.num 100)⟩
      ⟨"a2", [("name", .string "heinz")]⟩ = .ok true ∧
    find_applicable_segment_rule_for_entity
      [("sd", ⟨"", "sd", "", none, [⟨"name", "is", ["heinz"]⟩]⟩)]
      [⟨[⟨["sd"]⟩], .num (-49), 0, some (.num 100)⟩,
       ⟨[⟨["sd"]⟩], .num (-48), 1, some (.num 100)⟩]
      ⟨"a2", [("name", .string "heinz")]⟩
      = .ok (some ⟨[⟨["sd"]⟩], .num (-49), 0, some (.num 100)⟩) :=
  ⟨(C2_smallest_order
      [("sd", ⟨"", "sd", "", none, [⟨"name", "is", ["heinz"]⟩]⟩)]
      [⟨[⟨["sd"]⟩], .num (-48), 1, some (.num 100)⟩,
       ⟨[⟨["sd"]⟩], .num (-49), 0, some (.num 100)⟩]
      ⟨"a2", [("name", .string "heinz")]⟩
      ⟨[⟨["sd"]⟩], .num (-49), 0, some (.num 100)⟩ (by decide)).1.1,
   (C2_smallest_order
      [("sd", ⟨"", "sd", "", none, [⟨"name", "is", ["heinz"]⟩]⟩)]
      [⟨[⟨["sd"]⟩], .num (-48), 1, some (.num 100)⟩,
       ⟨[⟨["sd"]⟩], .num (-49), 0, some (.num 100)⟩]
      ⟨"a2", [("name", .string "heinz")]⟩
      ⟨[⟨["sd"]⟩], .num (-49), 0, some (.num 100)⟩ (by decide)).2
      [⟨[⟨["sd"]⟩], .num (-49), 0, some (.num 100)⟩,
       ⟨[⟨["sd"]⟩], .num (-48), 1, some (.num 100)⟩]
      (List.Perm.swap _ _ _) (by decide)⟩

/-! ## Claim C9 -/

/-- `belong_to_segment` never produces a `SegmentIdNotFound` error: its only
error shape is `SegmentEvaluationFailed` carrying the segment's own id. -/
theorem belong_to_segment_error_kind (segment : Segment)
    (attrs : List (String × AttrValue)) :
    ∀ e, belong_to_segment segment attrs = .error e →
      ∃ rule v src, e = .segmentEvaluationFailed segment.segment_id rule v src := by
  unfold belong_to_segment
  generalize segment.rules = rules
  induction rules with
  | nil => intro e h; exact absurd h (by simp [belongToSegmentRules])
  | cons rule rest ih =>
    intro e h
    cases hl : mapLookup attrs rule.attribute_name with
    | none => simp [belongToSegmentRules, hl] at h
    | some a =>
      cases hf : findCandidate a rule.operator rule.values with
      | error ev =>
        obtain ⟨src, v⟩ := ev
        simp only [belongToSegmentRules, hl, hf] at h
        exact ⟨rule, v, src, (Except.error.inj h).symm⟩
      | ok c =>
        cases c with
        | none => simp [belongToSegmentRules, hl, hf] at h
        | some cv =>
          simp only [belongToSegmentRules, hl, hf, Option.isSome_some, if_true] at h
          exact ih e h

/-- The id scan of one group: under the assumption that every id of the
group resolves and its segment evaluates without error, the scan succeeds
and returns true exactly when some id's segment contains the entity. -/
theorem segment_applies_spec (segments : List (String × Segment))
    (attrs : List (String × AttrValue)) :
    ∀ sids : List String,
      (∀ sid ∈ sids, ∃ seg, mapLookup segments sid = some seg ∧
        ∃ b, belong_to_segment seg attrs = .ok b) →
      ∃ b, segment_applies_to_entity segments attrs sids = .ok b ∧
        (b = true ↔ ∃ sid ∈ sids, ∃ seg, mapLookup segments sid = some seg ∧
          belong_to_segment seg attrs = .ok true) := by
  intro sids
  induction sids with
  | nil => intro _; exact ⟨false, rfl, by simp⟩
  | cons sid rest ih =>
    intro hres
    obtain ⟨seg, hseg, b0, hb0⟩ := hres sid (by simp)
    cases b0 with
    | true =>
      refine ⟨true, ?_, ?_⟩
      · simp [segment_applies_to_entity, hseg, hb0]
      · simp only [true_iff]
        exact ⟨sid, by simp, seg, hseg, hb0⟩
    | false =>
      obtain ⟨b, hb, hiff⟩ := ih fun x hx => hres x (by simp [hx])
      refine ⟨b, ?_, ?_⟩
      · simp [segment_applies_to_entity, hseg, hb0, hb]
      · rw [hiff]
        constructor
        · intro ⟨s, hs, hrest⟩
          exact ⟨s, by simp [hs], hrest⟩
        · intro ⟨s, hs, seg', hseg', hbel⟩
          rcases List.mem_cons.1 hs with rfl | hsr
          · rw [hseg] at hseg'
            rw [Option.some.inj hseg'] at hb0
            rw [hb0] at hbel
            exact absurd (Except.ok.inj hbel) (by simp)
          · exact ⟨s, hsr, seg', hseg', hbel⟩

/-- A `SegmentIdNotFound sid` error of the group scan pinpoints `sid`: it is
one of the scanned ids and it is absent from the segment map. -/
theorem segment_applies_error_spec (segments : List (String × Segment))
    (attrs : List (String × AttrValue)) :
    ∀ (sids : List String) (sid : String),
      segment_applies_to_entity segments attrs sids
        = .error (.segmentIdNotFound sid) →
      sid ∈ sids ∧ mapLookup segments sid = none := by
  intro sids
  induction sids with
  | nil => intro sid h; simp [segment_applies_to_entity] at h
  | cons s rest ih =>
    intro sid h
    cases hl : mapLookup segments s with
    | none =>
      simp only [segment_applies_to_entity, hl] at h
      have := (SegmentEvaluationError.segmentIdNotFound.inj (Except.error.inj h))
      subst this
      exact ⟨by simp, hl⟩
    | some seg =>
      cases hb : belong_to_segment seg attrs with
      | error e =>
        simp only [segment_applies_to_entity, hl, hb] at h
        obtain ⟨rule, v, src, hkind⟩ := belong_to_segment_error_kind seg attrs e hb
        rw [Except.error.inj h] at hkind
        exact absurd hkind (by simp)
      | ok b =>
        cases b with
        | true => simp [segment_applies_to_entity, hl, hb] at h
        | false =>
          simp only [segment_applies_to_entity, hl, hb] at h
          obtain ⟨hmem, hnone⟩ := ih sid h
          exact ⟨by simp [hmem], hnone⟩

/-- C9, counterexample.  The claim states that a group referencing a segment
id absent from the segment map makes evaluation fail with
`SegmentIdNotFound`.  Here the single group is `["s1", "missing"]`:
`"missing"` is absent from the map, yet the rule evaluates to `Ok(true)`,
because the scan already succeeded on `"s1"` (whose segment has no rules and
so contains every entity) and never looked `"missing"` up. -/
theorem C9_counterexample :
    mapLookup [("s1", (⟨"", "s1", "", none, []⟩ : Segment))] "missing" = none ∧
    targeting_rule_applies_to_entity [("s1", ⟨"", "s1", "", none, []⟩)]
      ⟨[⟨["s1", "missing"]⟩], .num 1, 0, some (.num 100)⟩
      ⟨"e1", [("x", .string "y")]⟩ = .ok true :=
  ⟨by decide, by decide⟩

/-- C9, amended.  A targeting rule evaluates to true iff some group contains
some segment id whose segment the entity belongs to, *provided* every
referenced id resolves and every segment membership test succeeds; ids are
scanned group by group in list order, and an id that fails to resolve
produces a `SegmentIdNotFound` error naming exactly that id only when the
scan reaches it before any match.  Conversely, every `SegmentIdNotFound sid`
error identifies an id referenced by the rule and absent from the map. -/
theorem C9_any_group_any_segment_amended (segments : List (String × Segment))
    (tr : TargetingRule) (entity : Entity) :
    ((∀ group ∈ tr.rules, ∀ sid ∈ group.segments,
        ∃ seg, mapLookup segments sid = some seg ∧
          ∃ b, belong_to_segment seg entity.attributes = .ok b) →
      (targeting_rule_applies_to_entity segments tr entity = .ok true ↔
        ∃ group ∈ tr.rules, ∃ sid ∈ group.segments, ∃ seg,
          mapLookup segments sid = some seg ∧
            belong_to_segment seg entity.attributes = .ok true)) ∧
    (∀ sid, targeting_rule_applies_to_entity segments tr entity
        = .error (.segmentIdNotFound sid) →
      (∃ group ∈ tr.rules, sid ∈ group.segments) ∧
        mapLookup segments sid = none) := by
  constructor
  · intro hres
    unfold targeting_rule_applies_to_entity
    have main : ∀ groups : List Segments,
        (∀ group ∈ groups, ∀ sid ∈ group.segments,
          ∃ seg, mapLookup segments sid = some seg ∧
            ∃ b, belong_to_segment seg entity.attributes = .ok b) →
        (anyGroupApplies segments entity.attributes groups = .ok true ↔
          ∃ group ∈ groups, ∃ sid ∈ group.segments, ∃ seg,
            mapLookup segments sid = some seg ∧
              belong_to_segment seg entity.attributes = .ok true) := by
      intro groups
      induction groups with
      | nil => intro _; simp [anyGroupApplies]
      | cons g rest ih =>
        intro hr
        obtain ⟨b, hb, hiff⟩ := segment_applies_spec segments entity.attributes
          g.segments (hr g (by simp))
        cases b with
        | true =>
          simp only [anyGroupApplies, hb]
          refine iff_of_true trivial ?_
          obtain ⟨sid, hsid, seg, hseg, hbel⟩ := hiff.1 rfl
          exact ⟨g, by simp, sid, hsid, seg, hseg, hbel⟩
        | false =>
          have hrec := ih fun x hx => hr x (by simp [hx])
          simp only [anyGroupApplies, hb]
          rw [hrec]
          constructor
          · intro ⟨g', hg', rest'⟩
            exact ⟨g', by simp [hg'], rest'⟩
          · intro ⟨g', hg', sid, hsid, seg, hseg, hbel⟩
            rcases List.mem_cons.1 hg' with rfl | hgr
            · exact absurd (hiff.2 ⟨sid, hsid, seg, hseg, hbel⟩) (by simp)
            · exact ⟨g', hgr, sid, hsid, seg, hseg, hbel⟩
    exact main tr.rules hres
  · intro sid
    unfold targeting_rule_applies_to_entity
    have main : ∀ groups : List Segments,
        anyGroupApplies segments entity.attributes groups
          = .error (.segmentIdNotFound sid) →
        (∃ group ∈ groups, sid ∈ group.segments) ∧
          mapLookup segments sid = none := by
      intro groups
      induction groups with
      | nil => intro h; simp [anyGroupApplies] at h
      | cons g rest ih =>
        intro h
        cases hs : segment_applies_to_entity segments entity.attributes g.segments with
        | error e =>
          simp only [anyGroupApplies, hs] at h
          rw [Except.error.inj h] at hs
          obtain ⟨hmem, hnone⟩ := segment_applies_error_spec segments
            entity.attributes g.segments sid hs
          exact ⟨⟨g, by simp, hmem⟩, hnone⟩
        | ok b =>
          cases b with
          | true => simp [anyGroupApplies, hs] at h
          | false =>
            simp only [anyGroupApplies, hs] at h
            obtain ⟨⟨g', hg', hmem⟩, hnone⟩ := ih h
            exact ⟨⟨g', by simp [hg'], hmem⟩, hnone⟩
    exact main tr.rules

/-- C9, witness for the amended theorem: with a fully resolvable map the
rule `[["sd"]]` evaluates to true for the matching entity via the iff, and
with an unresolvable map the scan of `[["missing"]]` errors, naming
`"missing"`, which the theorem then locates in the rule and misses in the
map. -/
theorem C9_any_group_any_segment_amended_witness :
    targeting_rule_applies_to_entity
      [("sd", ⟨"", "sd", "", none, [⟨"name", "is", ["heinz"]⟩]⟩)]
      ⟨[⟨["sd"]⟩], .num 1, 0, some (.num 100)⟩
      ⟨"a2", [("name", .string "heinz")]⟩ = .ok true ∧
    ((∃ group ∈ ([⟨["missing"]⟩] : List Segments), "missing" ∈ group.segments) ∧
      mapLookup ([] : List (String × Segment)) "missing" = none) :=
  ⟨((C9_any_group_any_segment_amended
      [("sd", ⟨"", "sd", "", none, [⟨"name", "is", ["heinz"]⟩]⟩)]
      ⟨[⟨["sd"]⟩], .num 1, 0, some (.num 100)⟩
      ⟨"a2", [("name", .string "heinz")]⟩).1
      (by
        intro group hg sid hsid
        simp only [List.mem_singleton] at hg
        subst hg
        simp only [List.mem_singleton] at hsid
        subst hsid
        exact ⟨_, rfl, true, by decide⟩)).mpr
      ⟨⟨["sd"]⟩, by simp, "sd", by simp, _, rfl, by decide⟩,
   (C9_any_group_any_segment_amended [] ⟨[⟨["missing"]⟩], .num 1, 0, some (.num 100)⟩
      ⟨"e1", [("x", .string "y")]⟩).2 "missing" (by decide)⟩

/-! ## Claim C10 -/

/-- A key in the key list of an association list has a lookup value. -/
theorem mapLookup_eq_some_of_mem_keys {α : Type} :
    ∀ (l : List (String × α)) (k : String), k ∈ l.map Prod.fst →
      ∃ v, mapLookup l k = some v := by
  intro l
  induction l with
  | nil => intro k hk; simp at hk
  | cons kv rest ih =>
    intro k hk
    by_cases hEq : kv.1 = k
    · exact ⟨kv.2, by simp [mapLookup, hEq]⟩
    · have : k ∈ rest.map Prod.fst := by
        rcases List.mem_cons.1 hk with h1 | h2
        · exact absurd h1.symm hEq
        · exact h2
      obtain ⟨v, hv⟩ := ih k this
      exact ⟨v, by simp [mapLookup, hEq, hv]⟩

/-- A segment id occurs in `referencedSegmentIds rules` exactly when some
group of some targeting rule lists it. -/
theorem mem_referencedSegmentIds {rules : List TargetingRule} {sid : String} :
    sid ∈ referencedSegmentIds rules ↔
      ∃ tr ∈ rules, ∃ g ∈ tr.rules, sid ∈ g.segments := by
  unfold referencedSegmentIds
  rw [List.mem_dedup]
  constructor
  · intro h
    obtain ⟨l, hl, hsid⟩ := List.mem_flatten.1 h
    obtain ⟨tr, htr, rfl⟩ := List.mem_map.1 hl
    obtain ⟨l2, hl2, hsid2⟩ := List.mem_flatten.1 hsid
    obtain ⟨g, hg, rfl⟩ := List.mem_map.1 hl2
    exact ⟨tr, htr, g, hg, hsid2⟩
  · rintro ⟨tr, htr, g, hg, hsid⟩
    refine List.mem_flatten.2 ⟨(tr.rules.map Segments.segments).flatten,
      List.mem_map.2 ⟨tr, htr, rfl⟩, ?_⟩
    exact List.mem_flatten.2 ⟨g.segments, List.mem_map.2 ⟨g, hg, rfl⟩, hsid⟩

/-- The cardinality argument of `get_feature`/`get_property`: when the
filtered segment map has as many entries as there are (deduplicated)
referenced ids, every referenced id has an entry. -/
theorem filter_complete (segs : List (String × Segment)) (ids : List String)
    (hnd : (segs.map Prod.fst).Nodup) (hids : ids.Nodup)
    (hlen : ids.length = (segs.filter fun kv => ids.contains kv.1).length) :
    ∀ sid ∈ ids, ∃ v,
      mapLookup (segs.filter fun kv => ids.contains kv.1) sid = some v := by
  intro sid hsid
  set F := segs.filter fun kv => ids.contains kv.1 with hF
  have hkeysnd : (F.map Prod.fst).Nodup :=
    ((List.filter_sublist segs).map Prod.fst).nodup hnd
  have hkeyssub : (F.map Prod.fst) ⊆ ids := by
    intro x hx
    obtain ⟨kv, hkv, rfl⟩ := List.mem_map.1 hx
    have := List.of_mem_filter hkv
    simpa using this
  have hsub : List.Subperm (F.map Prod.fst) ids :=
    List.subperm_of_subset hkeysnd hkeyssub
  have hperm : (F.map Prod.fst).Perm ids := by
    apply hsub.perm_of_length_le
    rw [hlen]
    simp [hF]
  exact mapLookup_eq_some_of_mem_keys F sid (hperm.symm.mem_iff.1 hsid)

/-- Inversion of `get_feature`: a successful call found the feature and
captured exactly the referenced entries of the snapshot's segment map, in
equal number to the referenced ids. -/
theorem get_feature_inv (snapshot : ConfigurationSnapshot) (feature_id : String)
    (handle : FeatureHandle) (h : get_feature snapshot feature_id = .ok handle) :
    mapLookup snapshot.features feature_id = some handle.feature ∧
    handle.segments = (snapshot.segments.filter fun kv =>
      (referencedSegmentIds handle.feature.segment_rules).contains kv.1) ∧
    (referencedSegmentIds handle.feature.segment_rules).length
      = handle.segments.length := by
  unfold get_feature at h
  cases hl : mapLookup snapshot.features feature_id with
  | none => rw [hl] at h; exact absurd h (by simp)
  | some feature =>
    rw [hl] at h
    simp only at h
    split at h
    next hguard => exact absurd h (by simp)
    next hguard =>
      have hinj := (Except.ok.inj h).symm
      subst hinj
      simp only [ne_eq, not_not] at hguard
      exact ⟨by simpa using hl, by simp, by simpa using hguard⟩

/-- Inversion of `get_property` (same shape as `get_feature`). -/
theorem get_property_inv (snapshot : ConfigurationSnapshot) (property_id : String)
    (handle : PropertyHandle) (h : get_property snapshot property_id = .ok handle) :
    mapLookup snapshot.properties property_id = some handle.property ∧
    handle.segments = (snapshot.segments.filter fun kv =>
      (referencedSegmentIds handle.property.segment_rules).contains kv.1) ∧
    (referencedSegmentIds handle.property.segment_rules).length
      = handle.segments.length := by
  unfold get_property at h
  cases hl : mapLookup snapshot.properties property_id with
  | none => rw [hl] at h; exact absurd h (by simp)
  | some property =>
    rw [hl] at h
    simp only at h
    split at h
    next hguard => exact absurd h (by simp)
    next hguard =>
      have hinj := (Except.ok.inj h).symm
      subst hinj
      simp only [ne_eq, not_not] at hguard
      exact ⟨by simpa using hl, by simp, by simpa using hguard⟩

/-- A `SegmentIdNotFound` error of the group loop pinpoints an id of one of
the groups that is absent from the segment map. -/
theorem anyGroupApplies_error_spec (segments : List (String × Segment))
    (attrs : List (String × AttrValue)) :
    ∀ (groups : List Segments) (sid : String),
      anyGroupApplies segments attrs groups = .error (.segmentIdNotFound sid) →
      (∃ g ∈ groups, sid ∈ g.segments) ∧ mapLookup segments sid = none := by
  intro groups
  induction groups with
  | nil => intro sid h; simp [anyGroupApplies] at h
  | cons g rest ih =>
    intro sid h
    cases hs : segment_applies_to_entity segments attrs g.segments with
    | error e =>
      simp only [anyGroupApplies, hs] at h
      rw [Except.error.inj h] at hs
      obtain ⟨hmem, hnone⟩ := segment_applies_error_spec segments attrs
        g.segments sid hs
      exact ⟨⟨g, by simp, hmem⟩, hnone⟩
    | ok b =>
      cases b with
      | true => simp [anyGroupApplies, hs] at h
      | false =>
        simp only [anyGroupApplies, hs] at h
        obtain ⟨⟨g', hg', hmem⟩, hnone⟩ := ih sid h
        exact ⟨⟨g', by simp [hg'], hmem⟩, hnone⟩

/-- An error of the first-match loop stems from one of the scanned rules. -/
theorem firstMatchingRule_error_mem (segments : List (String × Segment))
    (entity : Entity) :
    ∀ (l : List TargetingRule) (e : SegmentEvaluationError),
      firstMatchingRule segments entity l = .error e →
      ∃ tr ∈ l, targeting_rule_applies_to_entity segments tr entity = .error e := by
  intro l
  induction l with
  | nil => intro e h; simp [firstMatchingRule] at h
  | cons tr rest ih =>
    intro e h
    cases happ : targeting_rule_applies_to_entity segments tr entity with
    | error e' =>
      simp only [firstMatchingRule, happ] at h
      rw [Except.error.inj h] at happ
      exact ⟨tr, by simp, happ⟩
    | ok b =>
      cases b with
      | true => simp [firstMatchingRule, happ] at h
      | false =>
        simp only [firstMatchingRule, happ] at h
        obtain ⟨tr', htr', h'⟩ := ih e h
        exact ⟨tr', by simp [htr'], h'⟩

/-- When every segment id referenced by the rules has an entry in the
segment map, `find_applicable_segment_rule_for_entity` cannot fail with
`SegmentIdNotFound`. -/
theorem find_applicable_no_missing (segments : List (String × Segment))
    (rules : List TargetingRule) (entity : Entity) (sid : String)
    (hcomplete : ∀ tr ∈ rules, ∀ g ∈ tr.rules, ∀ s ∈ g.segments,
      ∃ v, mapLookup segments s = some v) :
    find_applicable_segment_rule_for_entity segments rules entity
      ≠ .error (.segmentIdNotFound sid) := by
  intro h
  unfold find_applicable_segment_rule_for_entity at h
  obtain ⟨tr, htr, herr⟩ := firstMatchingRule_error_mem segments entity _ _ h
  have htr' : tr ∈ rules := (List.perm_insertionSort ruleLE rules).mem_iff.1 htr
  unfold targeting_rule_applies_to_entity at herr
  obtain ⟨⟨g, hg, hmem⟩, hnone⟩ :=
    anyGroupApplies_error_spec segments entity.attributes tr.rules sid herr
  obtain ⟨v, hv⟩ := hcomplete tr htr' g hg sid hmem
  rw [hv] at hnone
  exact Option.noConfusion hnone

/-- Every error of `resolveRolloutPercentage` is a (modelled) panic. -/
theorem resolveRolloutPercentage_panic (feature : Feature) (r : TargetingRule)
    (e : EvalError) (h : resolveRolloutPercentage feature r = .error e) :
    ∃ msg, e = .panicked msg := by
  unfold resolveRolloutPercentage at h
  split at h
  · exact ⟨_, (Except.error.inj h).symm⟩
  · split at h
    · exact absurd h (by simp)
    · split at h
      · exact ⟨_, (Except.error.inj h).symm⟩
      · split at h
        · exact absurd h (by simp)
        · exact ⟨_, (Except.error.inj h).symm⟩

/-- Every error of the feature evaluator is either a propagated
segment-evaluation error of the rule search or a (modelled) panic. -/
theorem evaluate_feature_error_kind (feature : Feature)
    (segments : List (String × Segment)) (entity : Entity) (e : EvalError)
    (h : evaluate_feature_for_entity feature segments entity = .error e) :
    (∃ se, e = .entityEvaluationError se ∧
      find_applicable_segment_rule_for_entity segments feature.segment_rules entity
        = .error se) ∨
    ∃ msg, e = .panicked msg := by
  unfold evaluate_feature_for_entity at h
  split at h
  · exact absurd h (by simp)
  · split at h
    · exact absurd h (by simp)
    · split at h
      next se heq => exact Or.inl ⟨se, (Except.error.inj h).symm, heq⟩
      next heq => exact absurd h (by simp)
      next r heq =>
        split at h
        next e2 heq2 =>
          obtain ⟨msg, rfl⟩ := resolveRolloutPercentage_panic _ _ _ heq2
          exact Or.inr ⟨msg, (Except.error.inj h).symm⟩
        next p heq2 =>
          split at h
          · split at h
            · exact absurd h (by simp)
            · exact absurd h (by simp)
          · exact absurd h (by simp)

/-- Every error of the property evaluator is a propagated
segment-evaluation error of the rule search. -/
theorem evaluate_property_error_kind (property : Property)
    (segments : List (String × Segment)) (entity : Entity) (e : EvalError)
    (h : evaluate_property_for_entity property segments entity = .error e) :
    ∃ se, e = .entityEvaluationError se ∧
      find_applicable_segment_rule_for_entity segments property.segment_rules entity
        = .error se := by
  unfold evaluate_property_for_entity at h
  split at h
  · exact absurd h (by simp)
  · split at h
    next se heq => exact ⟨se, (Except.error.inj h).symm, heq⟩
    next r heq =>
      split at h
      · exact absurd h (by simp)
      · exact absurd h (by simp)
    next heq => exact absurd h (by simp)

/-- C10.  If `get_feature` (resp. `get_property`) returns `Ok`, then every
segment id referenced by any group of the resource's targeting rules is a
key of the segment map captured in the returned handle — otherwise the call
fails with `MissingSegments` — and consequently evaluation through a
successfully obtained handle can never reach the `SegmentIdNotFound` error.
(The `Nodup` hypothesis is the `HashMap` key-uniqueness invariant of the
snapshot's segment index.) -/
theorem C10_handles_capture_all_segments (snapshot : ConfigurationSnapshot)
    (hnd : (snapshot.segments.map Prod.fst).Nodup) :
    (∀ feature_id handle,
      get_feature snapshot feature_id = .ok handle →
      (∀ tr ∈ handle.feature.segment_rules, ∀ g ∈ tr.rules, ∀ sid ∈ g.segments,
        ∃ seg, mapLookup handle.segments sid = some seg) ∧
      ∀ (entity : Entity) (sid : String),
        evaluate_feature_for_entity handle.feature handle.segments entity
          ≠ .error (.entityEvaluationError (.segmentIdNotFound sid))) ∧
    (∀ property_id handle,
      get_property snapshot property_id = .ok handle →
      (∀ tr ∈ handle.property.segment_rules, ∀ g ∈ tr.rules, ∀ sid ∈ g.segments,
        ∃ seg, mapLookup handle.segments sid = some seg) ∧
      ∀ (entity : Entity) (sid : String),
        evaluate_property_for_entity handle.property handle.segments entity
          ≠ .error (.entityEvaluationError (.segmentIdNotFound sid))) := by
  constructor
  · intro feature_id handle h
    obtain ⟨hfeat, hsegs, hlen⟩ := get_feature_inv snapshot feature_id handle h
    have hcomplete : ∀ tr ∈ handle.feature.segment_rules, ∀ g ∈ tr.rules,
        ∀ sid ∈ g.segments, ∃ seg, mapLookup handle.segments sid = some seg := by
      intro tr htr g hg sid hsid
      rw [hsegs]
      exact filter_complete snapshot.segments
        (referencedSegmentIds handle.feature.segment_rules) hnd
        (List.nodup_dedup _) (by rw [hlen, hsegs]) sid
        (mem_referencedSegmentIds.2 ⟨tr, htr, g, hg, hsid⟩)
    refine ⟨hcomplete, ?_⟩
    intro entity sid hcontra
    rcases evaluate_feature_error_kind _ _ _ _ hcontra with ⟨se, hse, hfind⟩ | ⟨msg, hmsg⟩
    · have hsid : se = .segmentIdNotFound sid :=
        (EvalError.entityEvaluationError.inj hse).symm
      rw [hsid] at hfind
      exact find_applicable_no_missing handle.segments
        handle.feature.segment_rules entity sid hcomplete hfind
    · exact EvalError.noConfusion hmsg
  · intro property_id handle h
    obtain ⟨hprop, hsegs, hlen⟩ := get_property_inv snapshot property_id handle h
    have hcomplete : ∀ tr ∈ handle.property.segment_rules, ∀ g ∈ tr.rules,
        ∀ sid ∈ g.segments, ∃ seg, mapLookup handle.segments sid = some seg := by
      intro tr htr g hg sid hsid
      rw [hsegs]
      exact filter_complete snapshot.segments
        (referencedSegmentIds handle.property.segment_rules) hnd
        (List.nodup_dedup _) (by rw [hlen, hsegs]) sid
        (mem_referencedSegmentIds.2 ⟨tr, htr, g, hg, hsid⟩)
    refine ⟨hcomplete, ?_⟩
    intro entity sid hcontra
    obtain ⟨se, hse, hfind⟩ := evaluate_property_error_kind _ _ _ _ hcontra
    have hsid : se = .segmentIdNotFound sid :=
      (EvalError.entityEvaluationError.inj hse).symm
    rw [hsid] at hfind
    exact find_applicable_no_missing handle.segments
      handle.property.segment_rules entity sid hcomplete hfind

/-- C10, witness: a concrete snapshot whose feature `f1` and property `p1`
both reference segment `sd`; `get_feature`/`get_property` succeed and
evaluation of the obtained handles never reports `SegmentIdNotFound`. -/
theorem C10_handles_capture_all_segments_witness :
    evaluate_feature_for_entity
      ⟨"F1", "f1", .numeric, none, .num (-42), .num 2,
        [⟨[⟨["sd"]⟩], .num 7, 0, some (.num 100)⟩], true, 100⟩
      [("sd", ⟨"", "sd", "", none, [⟨"name", "is", ["heinz"]⟩]⟩)]
      ⟨"a2", [("name", .string "heinz")]⟩
      ≠ .error (.entityEvaluationError (.segmentIdNotFound "sd")) ∧
    evaluate_property_for_entity
      ⟨"P1", "p1", .numeric, none, none, .num 5,
        [⟨[⟨["sd"]⟩], .num 7, 0, some (.num 100)⟩]⟩
      [("sd", ⟨"", "sd", "", none, [⟨"name", "is", ["heinz"]⟩]⟩)]
      ⟨"a2", [("name", .string "heinz")]⟩
      ≠ .error (.entityEvaluationError (.segmentIdNotFound "sd")) :=
  ⟨((C10_handles_capture_all_segments
      ⟨[("f1", ⟨"F1", "f1", .numeric, none, .num (-42), .num 2,
          [⟨[⟨["sd"]⟩], .num 7, 0, some (.num 100)⟩], true, 100⟩)],
        [("p1", ⟨"P1", "p1", .numeric, none, none, .num 5,
          [⟨[⟨["sd"]⟩], .num 7, 0, some (.num 100)⟩]⟩)],
        [("sd", ⟨"", "sd", "", none, [⟨"name", "is", ["heinz"]⟩]⟩)]⟩
      (by decide)).1 "f1"
      ⟨⟨"F1", "f1", .numeric, none, .num (-42), .num 2,
          [⟨[⟨["sd"]⟩], .num 7, 0, some (.num 100)⟩], true, 100⟩,
        [("sd", ⟨"", "sd", "", none, [⟨"name", "is", ["heinz"]⟩]⟩)]⟩
      (by decide)).2 ⟨"a2", [("name", .string "heinz")]⟩ "sd",
   ((C10_handles_capture_all_segments
      ⟨[("f1", ⟨"F1", "f1", .numeric, none, .num (-42), .num 2,
          [⟨[⟨["sd"]⟩], .num 7, 0, some (.num 100)⟩], true, 100⟩)],
        [("p1", ⟨"P1", "p1", .numeric, none, none, .num 5,
          [⟨[⟨["sd"]⟩], .num 7, 0, some (.num 100)⟩]⟩)],
        [("sd", ⟨"", "sd", "", none, [⟨"name", "is", ["heinz"]⟩]⟩)]⟩
      (by decide)).2 "p1"
      ⟨⟨"P1", "p1", .numeric, none, none, .num 5,
          [⟨[⟨["sd"]⟩], .num 7, 0, some (.num 100)⟩]⟩,
        [("sd", ⟨"", "sd", "", none, [⟨"name", "is", ["heinz"]⟩]⟩)]⟩
      (by decide)).2 ⟨"a2", [("name", .string "heinz")]⟩ "sd"⟩
